import Mathlib

/-!
Verification of the mason build script (src/build.rs).

The script is a cargo-compatible pre-build orchestrator: it resolves a target
triple to toolchain parameters, searches upward for the mason.toml manifest,
merges the manifest's defaults and per-target path lists into two deduplicated
sets, converts each listed binary into a relocatable object (renaming its
boundary symbols), assembles every conforming .s file in each listed directory,
registers every produced object path in a collision-checked set, and archives
all registered objects.

This file embeds that logic shallowly: external tool invocations are modelled
by a `ToolOutput` value (exit status plus captured stdout/stderr), panics by
`Except.error` carrying the formatted panic message, the `HashSet` collections
by `Finset String`, and the host filesystem for the manifest search by the
list of ancestor directories of the working directory, each marked with
whether it holds the manifest file.
-/

/-- Captured result of one external toolchain invocation: exit status and the
captured stdout and stderr of that invocation. -/
structure ToolOutput where
  success : Bool
  stdout : String
  stderr : String
deriving DecidableEq

/-- Equality on `Except` values is decidable componentwise; the Rust code's
fatal-error vs normal-result outcomes are compared in concrete test theorems. -/
instance exceptDecEq {e a : Type} [DecidableEq e] [DecidableEq a] :
    DecidableEq (Except e a) := fun x y =>
  match x, y with
  | .error u, .error v => decidable_of_iff (u = v) (by simp)
  | .ok u, .ok v => decidable_of_iff (u = v) (by simp)
  | .error _, .ok _ => isFalse (by simp)
  | .ok _, .error _ => isFalse (by simp)

/-- `struct Target` from build.rs: the six toolchain parameters derived from a
build triple. -/
structure Target where
  cpu_arch : String
  gnu_prefix : String
  platform : String
  ptr_width : Nat
  fp_width : Nat
  abi : String
deriving DecidableEq

/-- The first `-`-separated segment of a triple: `triple.split('-').next()`
inside `Target::new` (the whole string when it has no `-`). -/
def first_segment (s : String) : String :=
  String.mk (s.data.takeWhile (fun c => c != '-'))

/-- `Target::new` from build.rs: exact-match lookup of the triple's first
segment in the fixed architecture table; an unrecognized segment panics
(modelled as `Except.error` with the panic message). -/
def Target.new (triple : String) : Except String Target :=
  if first_segment triple = "riscv64imac" then
    .ok ⟨"rv64imac", "riscv64", "riscv", 64, 0, "lp64"⟩
  else if first_segment triple = "riscv64gc" then
    .ok ⟨"rv64gc", "riscv64", "riscv", 64, 64, "lp64"⟩
  else
    .error ("Unsupported target \x27" ++ first_segment triple ++ "\x27")

/-- Leaf (final component) of a file path: models
`Path::new(p).file_name().unwrap()` for ordinary file paths, i.e. paths whose
final component is nonempty and not a special component. -/
def fileName (s : String) : String :=
  String.mk ((s.data.reverse.takeWhile (fun c => c != '/')).reverse)

/-- Rust `String::replace` for the single-character patterns used by
`package_binary` (`"/"` and `"."`). -/
def replace_char (s : String) (a b : Char) : String :=
  String.mk (s.data.map (fun c => if c = a then b else c))

/-- `register_object` from build.rs: insert the object path into the set of
objects to link; if the path was already present, panic naming the colliding
path. -/
def register_object (path : String) (objects : Finset String) :
    Except String (Finset String) :=
  if path ∈ objects then
    .error ("Cannot register object " ++ path ++
      " - an object already exists in that location")
  else
    .ok (insert path objects)

/-- `symbol_prefix` in `package_binary`: base of the boundary-symbol names the
linker auto-generates, derived from the full binary path with `/` and `.`
replaced by `_`. -/
def sym_old_base (binary_path : String) : String :=
  "_binary_" ++ replace_char (replace_char binary_path '/' '_') '.' '_' ++ "_"

/-- `renamed_prefix` in `package_binary`: base of the renamed boundary-symbol
names, derived from the leaf filename alone with `.` replaced by `_`. -/
def sym_new_base (binary_path : String) : String :=
  "_binary_" ++ replace_char (fileName binary_path) '.' '_' ++ "_"

/-- The three `old=new` redefinition arguments passed to objcopy in the single
`--redefine-sym` invocation of `package_binary`. -/
def redefine_args (binary_path : String) : List String :=
  [ sym_old_base binary_path ++ "start=" ++ sym_new_base binary_path ++ "start",
    sym_old_base binary_path ++ "end=" ++ sym_new_base binary_path ++ "end",
    sym_old_base binary_path ++ "size=" ++ sym_new_base binary_path ++ "size" ]

/-- The three boundary-symbol names after renaming (the right-hand sides of the
redefinitions in `package_binary`). -/
def renamed_symbols (binary_path : String) : List String :=
  [ sym_new_base binary_path ++ "start",
    sym_new_base binary_path ++ "end",
    sym_new_base binary_path ++ "size" ]

/-- `package_binary` from build.rs: run ld to wrap the binary as a relocatable
object at `<output_dir>/<leafname>.o` (fatal on nonzero exit, message carrying
that invocation's captured output), then run objcopy to rename the boundary
symbols (fatal on nonzero exit; the source interpolates `result.stdout` and
`result.stderr` - the captured output of the earlier ld invocation - into this
message), then register the object path. -/
def package_binary (ld_result oc_result : ToolOutput)
    (binary_path output_dir : String) (objects : Finset String) :
    Except String (Finset String) :=
  let leafname := fileName binary_path
  let object_file := output_dir ++ "/" ++ leafname ++ ".o"
  if ld_result.success = false then
    .error ("Conversion of " ++ binary_path ++ " to object " ++ object_file ++
      " failed:\n" ++ ld_result.stdout ++ "\n" ++ ld_result.stderr)
  else if oc_result.success = false then
    .error ("Symbol rename for " ++ binary_path ++ " in " ++ object_file ++
      " failed:\n" ++ ld_result.stdout ++ "\n" ++ ld_result.stderr)
  else
    register_object object_file objects

/-- The regex character class `[A-Za-z0-9_]` used by `assemble`. -/
def isWordChar (c : Char) : Bool :=
  c.isAlphanum || c == '_'

/-- Split a character list into its maximal leading run of word characters and
the remainder (how a backtracking regex engine consumes `[A-Za-z0-9_]+`). -/
def splitRun : List Char → List Char × List Char
  | [] => ([], [])
  | c :: cs =>
    if isWordChar c then ((c :: (splitRun cs).1), (splitRun cs).2)
    else ([], c :: cs)

/-- Matcher for the part of the `assemble` regex after the first
`segment/`: zero or more further `[A-Za-z0-9_]+/` groups, then the leaf
`[A-Za-z0-9_]+` capture, then the literal `.s` (anything may follow, since the
regex is unanchored). Returns the captured leaf. The fuel argument only
bounds the recursion; `cs.length` is always sufficient. -/
def matchTailF : Nat → List Char → Option (List Char)
  | 0, _ => none
  | n + 1, cs =>
    if (splitRun cs).1.isEmpty then none
    else
      match (splitRun cs).2 with
      | '/' :: rest2 => matchTailF n rest2
      | '.' :: 's' :: _ => some (splitRun cs).1
      | _ => none

/-- Match of the full `assemble` regex
`(([A-Za-z0-9_]+)(/))+(?P<leaf>[A-Za-z0-9_]+)(\.s)` starting exactly at the
head of `cs`, returning the `leaf` capture. -/
def matchAt (cs : List Char) : Option (List Char) :=
  if (splitRun cs).1.isEmpty then none
  else
    match (splitRun cs).2 with
    | '/' :: rest2 => matchTailF rest2.length rest2
    | _ => none

/-- Unanchored search of the `assemble` regex over `cs` (Rust's
`Regex::captures` semantics): the leftmost position where the pattern matches
wins; returns its `leaf` capture. -/
def findLeaf : List Char → Option (List Char)
  | [] => none
  | c :: cs =>
    match matchAt (c :: cs) with
    | some r => some r
    | none => findLeaf cs

/-- The leaf-name extraction of `assemble`: run the regex over the file path;
`none` models the `return` that silently skips non-matching files. -/
def assembleLeaf (path : String) : Option String :=
  (findLeaf path.data).map (fun r => String.mk r)

/-- `assemble` from build.rs: extract the leaf name (silently skipping paths
the regex does not match anywhere), run the assembler producing
`<output_dir>/<leaf>.o` (fatal on nonzero exit with that invocation's captured
output), and register the object path. -/
def assemble (as_result : ToolOutput) (output_dir path : String)
    (objects : Finset String) : Except String (Finset String) :=
  match assembleLeaf path with
  | none => .ok objects
  | some leafname =>
    if as_result.success = false then
      .error ("Assembling " ++ path ++ " failed:\n" ++ as_result.stdout ++
        "\n" ++ as_result.stderr)
    else
      register_object (output_dir ++ "/" ++ leafname ++ ".o") objects

/-- Modelled from the spec: tail of the spec's filename pattern read as a
full-string match — further `segment/` groups, then the leaf, then `.s` ending
the path (nothing after it). -/
def specTailFull : Nat → List Char → Bool
  | 0, _ => false
  | n + 1, cs =>
    if (splitRun cs).1.isEmpty then false
    else
      match (splitRun cs).2 with
      | '/' :: rest2 => specTailFull n rest2
      | ['.', 's'] => true
      | _ => false

/-- Modelled from the spec: the Assembly Processor's pattern "one or more path
segments of alphanumerics/underscores, ending in `.s`" read as a property of
the whole path (the path consists of the segments and ends in `.s`), for
comparison with the code's unanchored regex search. -/
def spec_asm_pattern (path : String) : Bool :=
  if (splitRun path.data).1.isEmpty then false
  else
    match (splitRun path.data).2 with
    | '/' :: rest2 => specTailFull rest2.length rest2
    | _ => false

/-- Whether `pat` occurs at the head of `s`. -/
def starts_with : List Char → List Char → Bool
  | _, [] => true
  | [], _ :: _ => false
  | c :: cs, p :: ps => c == p && starts_with cs ps

/-- Whether `pat` occurs contiguously anywhere inside `s` (used to state that
an error message does or does not carry a given captured output verbatim). -/
def contains_fragment : List Char → List Char → Bool
  | [], pat => pat.isEmpty
  | c :: rest, pat => starts_with (c :: rest) pat || contains_fragment rest pat

/-- `SEARCH_MAX` from build.rs: bound on the upward manifest search. -/
def SEARCH_MAX : Nat := 100

/-- `search_for_config` from build.rs, over an abstract filesystem: `dirs`
lists the working directory and its ancestors bottom-up (the last entry is the
filesystem root), each entry telling whether that directory contains the
manifest file. Each loop iteration of the source checks one directory and then
moves to its parent, giving up upon reaching a directory with no parent or
exhausting the step bound. Returns the index of the directory where the
manifest was found (identifying the returned path), or `none`. The program
runs it with `bound = SEARCH_MAX`. -/
def search_for_config : Nat → List Bool → Option Nat
  | 0, _ => none
  | _ + 1, [] => none
  | n + 1, present :: rest =>
    if present then some 0
    else
      match rest with
      | [] => none
      | _ :: _ => (search_for_config n rest).map (fun k => k + 1)

/-- `struct ConfigEntry` from build.rs: one optional section of mason.toml. -/
structure ConfigEntry where
  include_files : Option (List String)
  asm_dirs : Option (List String)
deriving DecidableEq

/-- `add_file_paths_from_config` from build.rs: insert every path listed by the
entry into the two accumulating sets; absent fields contribute nothing. -/
def add_file_paths_from_config (entry : ConfigEntry)
    (include_files asm_dirs : Finset String) : Finset String × Finset String :=
  (match entry.include_files with
   | some files => files.foldl (fun table file => insert file table) include_files
   | none => include_files,
   match entry.asm_dirs with
   | some files => files.foldl (fun table file => insert file table) asm_dirs
   | none => asm_dirs)

/-- `targets.get(&target_string)` on the per-target `BTreeMap`: exact-key
lookup in the (unique-keyed) table of per-target manifest entries. -/
def lookup_entry : List (String × ConfigEntry) → String → Option ConfigEntry
  | [], _ => none
  | (k, v) :: rest, key => if k = key then some v else lookup_entry rest key

/-- The manifest-merging portion of `main` in build.rs: start from empty sets,
add the `defaults` entry if present, then add the entry keyed by the exact
target-triple string if present. -/
def merge_config_paths (defaults : Option ConfigEntry)
    (targets : Option (List (String × ConfigEntry))) (target_string : String) :
    Finset String × Finset String :=
  let sets1 : Finset String × Finset String :=
    match defaults with
    | some d => add_file_paths_from_config d ∅ ∅
    | none => (∅, ∅)
  match targets with
  | some tbl =>
    match lookup_entry tbl target_string with
    | some arch => add_file_paths_from_config arch sets1.1 sets1.2
    | none => sets1
  | none => sets1

/-- `link_archive` from build.rs: build the single archiver command (mode
`crus`, fixed archive path `<output_dir>/libmason-bundle.a`, then every
registered object), and on success emit the two cargo directives; on nonzero
exit panic with the invocation's captured output. The first component is the
one command issued (program and arguments), the second the outcome. -/
def link_archive (ar_exec output_dir : String) (objects : List String)
    (ar_result : ToolOutput) :
    (String × List String) × Except String (List String) :=
  let archive_name := "mason-bundle"
  let archive_path := output_dir ++ "/lib" ++ archive_name ++ ".a"
  ((ar_exec, "crus" :: archive_path :: objects),
   if ar_result.success = false then
     .error ("Archiving " ++ archive_path ++ " failed:\n" ++
       ar_result.stdout ++ "\n" ++ ar_result.stderr)
   else
     .ok ["cargo:rustc-link-search=" ++ output_dir,
          "cargo:rustc-link-lib=static=" ++ archive_name])

/-- Appending strings appends their character data. -/
theorem str_data_append (a b : String) : (a ++ b).data = a.data ++ b.data := by
  cases a; cases b; rfl

/-- String concatenation is associative. -/
theorem str_append_assoc (a b c : String) : a ++ b ++ c = a ++ (b ++ c) := by
  cases a with
  | mk l1 =>
    cases b with
    | mk l2 =>
      cases c with
      | mk l3 =>
        show String.mk ((l1 ++ l2) ++ l3) = String.mk (l1 ++ (l2 ++ l3))
        rw [List.append_assoc]

/-- Taking the leaf of a path twice equals taking it once (the leaf has no
separator in it). -/
theorem fileName_idem (s : String) : fileName (fileName s) = fileName s := by
  unfold fileName
  simp [List.takeWhile_idem]

/-- `splitRun` splits a word run followed by a non-word character exactly at
that character. -/
theorem splitRun_word_append (w : List Char) (b : Char) (rest : List Char)
    (hw : ∀ c ∈ w, isWordChar c = true) (hb : isWordChar b = false) :
    splitRun (w ++ b :: rest) = (w, b :: rest) := by
  induction w with
  | nil => simp [splitRun, hb]
  | cons c w ih =>
    have hc : isWordChar c = true := hw c (by simp)
    have hw' : ∀ x ∈ w, isWordChar x = true := fun x hx => hw x (by simp [hx])
    simp [splitRun, hc, ih hw']

/-- Character data of a `<dir>/<leaf>.s` path. -/
theorem path_data (d leaf : String) :
    (d ++ "/" ++ leaf ++ ".s").data = d.data ++ '/' :: (leaf.data ++ ['.', 's']) := by
  simp [str_data_append, show ("/" : String).data = ['/'] from rfl,
        show (".s" : String).data = ['.', 's'] from rfl]

/-- The tail matcher accepts `<leaf>.s<anything>` with positive fuel,
capturing the leaf. -/
theorem matchTailF_leaf (a : Char) (as tail : List Char)
    (hwl : ∀ c ∈ a :: as, isWordChar c = true) (n : Nat) :
    matchTailF (n + 1) ((a :: as) ++ '.' :: 's' :: tail) = some (a :: as) := by
  have hsplit := splitRun_word_append (a :: as) '.' ('s' :: tail) hwl (by decide)
  simp only [List.cons_append] at hsplit
  simp [matchTailF, hsplit]

/-- The anchored matcher accepts `<dir>/<leaf>.s<anything>` for word-character
`dir` and `leaf`, capturing the leaf. -/
theorem matchAt_dir_leaf (c : Char) (cs : List Char) (a : Char) (as tail : List Char)
    (hwd : ∀ x ∈ c :: cs, isWordChar x = true)
    (hwl : ∀ x ∈ a :: as, isWordChar x = true) :
    matchAt ((c :: cs) ++ '/' :: ((a :: as) ++ '.' :: 's' :: tail)) = some (a :: as) := by
  have hsplit := splitRun_word_append (c :: cs) '/' ((a :: as) ++ '.' :: 's' :: tail)
    hwd (by decide)
  simp only [List.cons_append] at hsplit ⊢
  simp [matchAt, hsplit]
  exact matchTailF_leaf a as tail hwl _

/-- `assemble`'s leaf extraction on a `<dir>/<leaf>.s` path with word-character
`dir` and `leaf` yields the leaf. -/
theorem assembleLeaf_dir_leaf (d leaf : String)
    (hd : d.data ≠ []) (hwd : ∀ c ∈ d.data, isWordChar c = true)
    (hl : leaf.data ≠ []) (hwl : ∀ c ∈ leaf.data, isWordChar c = true) :
    assembleLeaf (d ++ "/" ++ leaf ++ ".s") = some leaf := by
  obtain ⟨c, cs, hc⟩ := List.exists_cons_of_ne_nil hd
  obtain ⟨a, as, ha⟩ := List.exists_cons_of_ne_nil hl
  have hmatch := matchAt_dir_leaf c cs a as [] (hc ▸ hwd) (ha ▸ hwl)
  have hpath := path_data d leaf
  rw [hc, ha] at hpath
  unfold assembleLeaf
  rw [hpath]
  simp only [List.cons_append] at hmatch ⊢
  simp [findLeaf, hmatch]
  rw [← ha]

/-- If the manifest is at depth `d` and nowhere shallower, any bound beyond
`d` finds it. -/
theorem search_found : ∀ (d : Nat) (dirs : List Bool) (bound : Nat),
    dirs[d]? = some true → (∀ i, i < d → dirs[i]? = some false) → d < bound →
    search_for_config bound dirs = some d := by
  intro d
  induction d with
  | zero =>
    intro dirs bound h _ hb
    cases dirs with
    | nil => simp at h
    | cons present rest =>
      cases bound with
      | zero => omega
      | succ n =>
        have hp : present = true := by simpa using h
        simp [search_for_config, hp]
  | succ d ih =>
    intro dirs bound h hlt hb
    cases dirs with
    | nil => simp at h
    | cons present rest =>
      cases bound with
      | zero => omega
      | succ n =>
        have hp : present = false := by simpa using hlt 0 (by omega)
        have hrest : rest[d]? = some true := by simpa using h
        have hrest_lt : ∀ i, i < d → rest[i]? = some false := by
          intro i hi
          simpa using hlt (i + 1) (by omega)
        have hne : rest ≠ [] := by
          intro hnil
          rw [hnil] at hrest
          simp at hrest
        obtain ⟨x, xs, hx⟩ := List.exists_cons_of_ne_nil hne
        subst hx
        simp [search_for_config, hp, ih _ n hrest hrest_lt (by omega)]

/-- If the manifest is at depth `d` and nowhere shallower, any bound at most
`d` misses it. -/
theorem search_bounded : ∀ (bound : Nat) (dirs : List Bool) (d : Nat),
    dirs[d]? = some true → (∀ i, i < d → dirs[i]? = some false) → bound ≤ d →
    search_for_config bound dirs = none := by
  intro bound
  induction bound with
  | zero => intro dirs d _ _ _; rfl
  | succ n ih =>
    intro dirs d h hlt hb
    cases dirs with
    | nil => simp at h
    | cons present rest =>
      have hp : present = false := by simpa using hlt 0 (by omega)
      cases d with
      | zero => omega
      | succ d2 =>
        have hrest : rest[d2]? = some true := by simpa using h
        cases rest with
        | nil => simp at hrest
        | cons x xs =>
          have hlt2 : ∀ i, i < d2 → (x :: xs)[i]? = some false := by
            intro i hi
            simpa using hlt (i + 1) (by omega)
          simp [search_for_config, hp, ih _ d2 hrest hlt2 (by omega)]

/-- With no manifest anywhere up to the root, the search fails for every
bound. -/
theorem search_all_false : ∀ (dirs : List Bool) (bound : Nat),
    (∀ x ∈ dirs, x = false) → search_for_config bound dirs = none := by
  intro dirs
  induction dirs with
  | nil => intro bound _; cases bound <;> rfl
  | cons present rest ih =>
    intro bound h
    cases bound with
    | zero => rfl
    | succ n =>
      have hp : present = false := h present (by simp)
      cases rest with
      | nil => simp [search_for_config, hp]
      | cons x xs =>
        have h2 : ∀ y ∈ x :: xs, y = false := fun y hy => h y (by simp [hy])
        simp [search_for_config, hp, ih n h2]

/-- Folding `insert` over a list is set union with the list's elements. -/
theorem foldl_insert_union (l : List String) (s : Finset String) :
    l.foldl (fun table file => insert file table) s = s ∪ l.toFinset := by
  induction l generalizing s with
  | nil => simp
  | cons a l ih =>
    simp only [List.foldl_cons, ih, List.toFinset_cons]
    rw [Finset.insert_union, Finset.union_insert]

/-- `add_file_paths_from_config` unions each present field into the
corresponding set. -/
theorem add_file_paths_eq_union (entry : ConfigEntry) (s a : Finset String) :
    add_file_paths_from_config entry s a =
      (s ∪ (entry.include_files.getD []).toFinset,
       a ∪ (entry.asm_dirs.getD []).toFinset) := by
  obtain ⟨inc, dirs⟩ := entry
  cases inc <;> cases dirs <;>
    simp [add_file_paths_from_config, foldl_insert_union]

/-- Claim C1 (code bug): the Assembly Processor is specified to assemble a
file iff its path matches "one or more path segments of
alphanumerics/underscores, ending in .s", silently skipping every other file.
The source regex has no anchors, so `Regex::captures` searches for the pattern
anywhere in the path: the non-.s file `src/foo.s.bak` is assembled (its
substring `src/foo.s` matches, capturing leaf `foo` and producing an object),
although the spec pattern rejects that path. On the spec's own example the
positive half holds: `src/start.s` is assembled with leaf `start`, and
`src/README.md` is skipped with no object and no error. -/
theorem assemble_unanchored_match_bug :
    assembleLeaf "src/foo.s.bak" = some "foo" ∧
    spec_asm_pattern "src/foo.s.bak" = false ∧
    assemble ⟨true, "", ""⟩ "out" "src/foo.s.bak" ∅ =
      .ok (insert "out/foo.o" ∅) ∧
    assembleLeaf "src/start.s" = some "start" ∧
    assembleLeaf "src/README.md" = none := by
  refine ⟨by decide, by decide, by decide, by decide, by decide⟩

/-- Claim C2 (code bug): every fatal toolchain message is specified to carry
the failing invocation's own captured stdout and stderr verbatim. In
`package_binary`, when the objcopy symbol rename exits nonzero, the panic
message interpolates `result.stdout` and `result.stderr` - the captured
output of the earlier, successful ld invocation - instead of `rename.stdout`
and `rename.stderr`. Here ld succeeds with output LDOUT/LDERR and the rename
fails with output OCOUT/OCERR: the fatal message contains LDOUT and LDERR but
not OCOUT; the ld-failure branch (last conjunct) does carry its own output. -/
theorem package_binary_rename_output_bug :
    package_binary ⟨true, "LDOUT", "LDERR"⟩ ⟨false, "OCOUT", "OCERR"⟩
      "src/data/font.bin" "out" ∅ =
      .error "Symbol rename for src/data/font.bin in out/font.bin.o failed:\nLDOUT\nLDERR" ∧
    contains_fragment
      "Symbol rename for src/data/font.bin in out/font.bin.o failed:\nLDOUT\nLDERR".data
      "LDOUT".data = true ∧
    contains_fragment
      "Symbol rename for src/data/font.bin in out/font.bin.o failed:\nLDOUT\nLDERR".data
      "LDERR".data = true ∧
    contains_fragment
      "Symbol rename for src/data/font.bin in out/font.bin.o failed:\nLDOUT\nLDERR".data
      "OCOUT".data = false ∧
    contains_fragment
      "Symbol rename for src/data/font.bin in out/font.bin.o failed:\nLDOUT\nLDERR".data
      "OCERR".data = false ∧
    package_binary ⟨false, "LDOUT", "LDERR"⟩ ⟨true, "", ""⟩
      "src/data/font.bin" "out" ∅ =
      .error "Conversion of src/data/font.bin to object out/font.bin.o failed:\nLDOUT\nLDERR" := by
  refine ⟨by decide, by decide, by decide, by decide, by decide, by decide⟩

/-- Claim C3: with the manifest exactly at depth `d` above the working
directory (entry `d` of the ancestor list is marked and no shallower entry
is), the Manifest Locator returns its location for every search bound
strictly greater than `d`, returns not-found for every bound at most `d`, and
with no manifest in the working directory or any ancestor up to the root
returns not-found for every bound. -/
theorem search_for_config_depth_spec (dirs : List Bool) (d : Nat)
    (hfound : dirs[d]? = some true)
    (habove : ∀ i, i < d → dirs[i]? = some false) :
    (∀ bound, d < bound → search_for_config bound dirs = some d) ∧
    (∀ bound, bound ≤ d → search_for_config bound dirs = none) ∧
    (∀ dirs2 : List Bool, (∀ x ∈ dirs2, x = false) →
      ∀ bound, search_for_config bound dirs2 = none) :=
  ⟨fun bound hb => search_found d dirs bound hfound habove hb,
   fun bound hb => search_bounded bound dirs d hfound habove hb,
   fun dirs2 h2 bound => search_all_false dirs2 bound h2⟩

theorem search_for_config_depth_spec_witness :
    search_for_config 3 [false, false, true] = some 2 ∧
    search_for_config 2 [false, false, true] = none ∧
    search_for_config 100 [false, false] = none := by
  have h := search_for_config_depth_spec [false, false, true] 2 (by decide)
    (by intro i hi; interval_cases i <;> decide)
  exact ⟨h.1 3 (by decide), h.2.1 2 (by decide), h.2.2 [false, false] (by decide) 100⟩

/-- Claim C4: the renamed boundary symbols of `package_binary` are derived
only from the binary's leaf name with dots replaced by underscores: any two
paths with the same leaf name get identical renamed symbols, the symbols do
not depend on the directory part of the path, and a path ending in `font.bin`
yields the three symbols named from `font_bin`. -/
theorem renamed_symbols_leaf_only :
    (∀ p1 p2 : String, fileName p1 = fileName p2 →
      renamed_symbols p1 = renamed_symbols p2) ∧
    (∀ p : String, renamed_symbols p = renamed_symbols (fileName p)) ∧
    renamed_symbols "src/data/font.bin" =
      ["_binary_font_bin_start", "_binary_font_bin_end", "_binary_font_bin_size"] := by
  refine ⟨?_, ?_, by decide⟩
  · intro p1 p2 h
    simp [renamed_symbols, sym_new_base, h]
  · intro p
    simp [renamed_symbols, sym_new_base, fileName_idem]

theorem renamed_symbols_leaf_only_witness :
    renamed_symbols "boot/font.bin" = renamed_symbols "artwork/lib/font.bin" :=
  renamed_symbols_leaf_only.1 "boot/font.bin" "artwork/lib/font.bin" (by decide)

/-- Claim C5: the Manifest Merger unions the defaults entry's and the target
entry's `include_files` lists and `asm_dirs` lists into two sets deduplicated
by exact path string, independent of the order in which overlapping paths are
listed; merging include lists `{"a","b"}` and `{"b","c"}` yields exactly
`{"a","b","c"}`; an absent entry or an absent field contributes nothing. -/
theorem merge_config_union :
    (∀ (d t : ConfigEntry) (key : String),
      merge_config_paths (some d) (some [(key, t)]) key =
        ((d.include_files.getD []).toFinset ∪ (t.include_files.getD []).toFinset,
         (d.asm_dirs.getD []).toFinset ∪ (t.asm_dirs.getD []).toFinset)) ∧
    (∀ (d t : ConfigEntry) (key : String),
      merge_config_paths (some d) (some [(key, t)]) key =
        merge_config_paths (some t) (some [(key, d)]) key) ∧
    merge_config_paths (some ⟨some ["a", "b"], none⟩)
        (some [("T", ⟨some ["b", "c"], none⟩)]) "T" =
      (["a", "b", "c"].toFinset, ∅) ∧
    (∀ s a, add_file_paths_from_config ⟨none, none⟩ s a = (s, a)) ∧
    (∀ key, merge_config_paths none none key = (∅, ∅)) := by
  have hm : ∀ (d t : ConfigEntry) (key : String),
      merge_config_paths (some d) (some [(key, t)]) key =
        ((d.include_files.getD []).toFinset ∪ (t.include_files.getD []).toFinset,
         (d.asm_dirs.getD []).toFinset ∪ (t.asm_dirs.getD []).toFinset) := by
    intro d t key
    simp [merge_config_paths, lookup_entry, add_file_paths_eq_union]
  refine ⟨hm, fun d t key => ?_, by decide,
    fun s a => by simp [add_file_paths_from_config], fun key => rfl⟩
  rw [hm, hm]
  rw [Finset.union_comm ((d.include_files.getD []).toFinset),
      Finset.union_comm ((d.asm_dirs.getD []).toFinset)]

/-- Claim C6: registering a fresh path in the Object Registry succeeds and
adds it to the set; registering the same path again fails fatally with a
message naming the colliding path, at which point the set holds exactly one
entry for that path (it is a member and the cardinality grew by exactly
one). -/
theorem register_object_spec (path : String) (objects : Finset String)
    (h : path ∉ objects) :
    register_object path objects = .ok (insert path objects) ∧
    register_object path (insert path objects) =
      .error ("Cannot register object " ++ path ++
        " - an object already exists in that location") ∧
    path ∈ insert path objects ∧
    (insert path objects).card = objects.card + 1 :=
  ⟨by simp [register_object, h], by simp [register_object],
   Finset.mem_insert_self path objects, Finset.card_insert_of_not_mem h⟩

theorem register_object_spec_witness :
    register_object "out/start.o" ∅ = .ok (insert "out/start.o" ∅) ∧
    register_object "out/start.o" (insert "out/start.o" ∅) =
      .error "Cannot register object out/start.o - an object already exists in that location" := by
  have h := register_object_spec "out/start.o" ∅ (by decide)
  exact ⟨h.1, h.2.1⟩

/-- Claim C7: the Target Resolver splits the triple on `-`, takes the first
segment, and looks it up in the fixed table: each recognized segment yields
exactly the six-field parameter tuple of its table entry, and any
unrecognized leading segment is a fatal error, with no fallback and no
partial matching. -/
theorem target_new_table (triple : String) :
    (first_segment triple = "riscv64imac" →
      Target.new triple = .ok ⟨"rv64imac", "riscv64", "riscv", 64, 0, "lp64"⟩) ∧
    (first_segment triple = "riscv64gc" →
      Target.new triple = .ok ⟨"rv64gc", "riscv64", "riscv", 64, 64, "lp64"⟩) ∧
    (first_segment triple ≠ "riscv64imac" → first_segment triple ≠ "riscv64gc" →
      Target.new triple =
        .error ("Unsupported target \x27" ++ first_segment triple ++ "\x27")) := by
  refine ⟨fun h => ?_, fun h => ?_, fun h1 h2 => ?_⟩
  · simp [Target.new, h]
  · simp [Target.new, h]
  · simp [Target.new, h1, h2]

theorem target_new_table_witness :
    Target.new "riscv64gc-unknown-none-elf" =
      .ok ⟨"rv64gc", "riscv64", "riscv", 64, 64, "lp64"⟩ ∧
    Target.new "x86_64-unknown-linux-gnu" =
      .error "Unsupported target \x27x86_64\x27" := by
  refine ⟨(target_new_table "riscv64gc-unknown-none-elf").2.1 (by decide), ?_⟩
  have h := (target_new_table "x86_64-unknown-linux-gnu").2.2 (by decide) (by decide)
  exact h

/-- Claim C8: the per-target manifest entry contributes to the merged path
sets iff its key in the per-target table equals the full triple string
exactly; an entry whose key differs from the passed triple only in its
OS/environment suffix contributes nothing, even though `Target::new` matches
only the triple's first segment and resolves both triples to the same
architecture parameters. -/
theorem target_entry_exact_triple :
    (∀ (d : Option ConfigEntry) (tbl : List (String × ConfigEntry)) (key : String),
      lookup_entry tbl key = none →
      merge_config_paths d (some tbl) key = merge_config_paths d none key) ∧
    (∀ (d : Option ConfigEntry) (tbl : List (String × ConfigEntry)) (key : String)
      (e : ConfigEntry), lookup_entry tbl key = some e →
      merge_config_paths d (some tbl) key =
        merge_config_paths d (some [(key, e)]) key) ∧
    lookup_entry [("riscv64gc-unknown-linux-gnu", ⟨some ["f.bin"], some ["dirA"]⟩)]
      "riscv64gc-unknown-none-elf" = none ∧
    merge_config_paths none
      (some [("riscv64gc-unknown-linux-gnu", ⟨some ["f.bin"], some ["dirA"]⟩)])
      "riscv64gc-unknown-none-elf" = (∅, ∅) ∧
    Target.new "riscv64gc-unknown-none-elf" = Target.new "riscv64gc-unknown-linux-gnu" := by
  refine ⟨fun d tbl key h => ?_, fun d tbl key e h => ?_, by decide, by decide, by decide⟩
  · simp [merge_config_paths, h]
  · simp [merge_config_paths, lookup_entry, h]

theorem target_entry_exact_triple_witness :
    merge_config_paths (some ⟨some ["blob.bin"], none⟩)
      (some [("riscv64gc-unknown-linux-gnu", ⟨none, some ["src/boot"]⟩)])
      "riscv64gc-unknown-none-elf" =
    merge_config_paths (some ⟨some ["blob.bin"], none⟩) none
      "riscv64gc-unknown-none-elf" :=
  target_entry_exact_triple.1 (some ⟨some ["blob.bin"], none⟩)
    [("riscv64gc-unknown-linux-gnu", ⟨none, some ["src/boot"]⟩)]
    "riscv64gc-unknown-none-elf" (by decide)

/-- Claim C9: the Archiver issues exactly one archiver command, in `crus`
(replace/create, with index) mode, on the fixed archive path
`<output_dir>/libmason-bundle.a`, passing as inputs exactly the registered
object paths and nothing else; on success it emits exactly two build-system
directives: a library-search-path directive for the output directory and a
static-link directive for the archive name. -/
theorem link_archive_invocation (ar_exec output_dir : String)
    (objects : List String) (registry : Finset String) (ar_result : ToolOutput)
    (hobs : objects.toFinset = registry) :
    (link_archive ar_exec output_dir objects ar_result).1 =
      (ar_exec, "crus" :: (output_dir ++ "/libmason-bundle.a") :: objects) ∧
    (∀ x, x ∈ (link_archive ar_exec output_dir objects ar_result).1.2 ↔
      (x = "crus" ∨ x = output_dir ++ "/libmason-bundle.a" ∨ x ∈ registry)) ∧
    (ar_result.success = true →
      (link_archive ar_exec output_dir objects ar_result).2 =
        .ok ["cargo:rustc-link-search=" ++ output_dir,
             "cargo:rustc-link-lib=static=mason-bundle"]) := by
  have hpath : output_dir ++ "/lib" ++ "mason-bundle" ++ ".a" =
      output_dir ++ "/libmason-bundle.a" :=
    calc output_dir ++ "/lib" ++ "mason-bundle" ++ ".a"
        = output_dir ++ "/lib" ++ ("mason-bundle" ++ ".a") :=
          str_append_assoc (output_dir ++ "/lib") "mason-bundle" ".a"
      _ = output_dir ++ ("/lib" ++ ("mason-bundle" ++ ".a")) :=
          str_append_assoc output_dir "/lib" ("mason-bundle" ++ ".a")
      _ = output_dir ++ "/libmason-bundle.a" := rfl
  subst hobs
  refine ⟨by simp [link_archive, hpath], fun x => ?_, fun hs => ?_⟩
  · simp [link_archive, hpath, List.mem_toFinset]
  · simp [link_archive, hs]

theorem link_archive_invocation_witness :
    (link_archive "riscv64-linux-gnu-ar" "out" ["out/a.o"] ⟨true, "", ""⟩).1 =
      ("riscv64-linux-gnu-ar", ["crus", "out/libmason-bundle.a", "out/a.o"]) ∧
    (link_archive "riscv64-linux-gnu-ar" "out" ["out/a.o"] ⟨true, "", ""⟩).2 =
      .ok ["cargo:rustc-link-search=out", "cargo:rustc-link-lib=static=mason-bundle"] := by
  have h := link_archive_invocation "riscv64-linux-gnu-ar" "out" ["out/a.o"]
    (["out/a.o"].toFinset) ⟨true, "", ""⟩ rfl
  exact ⟨h.1, h.2.2 rfl⟩

/-- Claim C10: two assembly sources in different configured directories with
the same leaf name both map to the output object `<output_dir>/<leaf>.o`, so
when both directories are processed in one run the second registration fails
fatally and the run cannot succeed - the code imposes on assembly files the
leaf-name-collision failure the spec states only for binaries. -/
theorem asm_leaf_collision (output_dir d1 d2 leaf : String)
    (t1 t2 : ToolOutput)
    (hd1 : d1.data ≠ []) (hw1 : ∀ c ∈ d1.data, isWordChar c = true)
    (hd2 : d2.data ≠ []) (hw2 : ∀ c ∈ d2.data, isWordChar c = true)
    (hl : leaf.data ≠ []) (hwl : ∀ c ∈ leaf.data, isWordChar c = true)
    (hs1 : t1.success = true) (hs2 : t2.success = true) :
    assemble t1 output_dir (d1 ++ "/" ++ leaf ++ ".s") ∅ =
      .ok (insert (output_dir ++ "/" ++ leaf ++ ".o") ∅) ∧
    assemble t2 output_dir (d2 ++ "/" ++ leaf ++ ".s")
        (insert (output_dir ++ "/" ++ leaf ++ ".o") ∅) =
      .error ("Cannot register object " ++ (output_dir ++ "/" ++ leaf ++ ".o") ++
        " - an object already exists in that location") := by
  have h1 := assembleLeaf_dir_leaf d1 leaf hd1 hw1 hl hwl
  have h2 := assembleLeaf_dir_leaf d2 leaf hd2 hw2 hl hwl
  constructor
  · simp [assemble, h1, hs1, register_object]
  · simp [assemble, h2, hs2, register_object]

theorem asm_leaf_collision_witness :
    assemble ⟨true, "", ""⟩ "out" "boot/start.s" ∅ =
      .ok (insert "out/start.o" ∅) ∧
    assemble ⟨true, "", ""⟩ "out" "trap/start.s" (insert "out/start.o" ∅) =
      .error "Cannot register object out/start.o - an object already exists in that location" := by
  have h := asm_leaf_collision "out" "boot" "trap" "start" ⟨true, "", ""⟩ ⟨true, "", ""⟩
    (by decide) (by decide) (by decide) (by decide) (by decide) (by decide) rfl rfl
  exact ⟨h.1, h.2⟩
